import Mathlib

set_option maxRecDepth 8192

/-!
Verification development for the two detection tools of the repository:
`plugins/bon-cop-bad-cop/tools/detect_cheating.py` and
`plugins/bon-cop-bad-cop/tools/detect_flaky.py`.

The Python programs are shallowly embedded: pure functions become Lean
functions, Python dictionaries become association lists built by
insertion-with-overwrite, Python strings become Lean `String`s, and the
syntax trees that `ast` produces are modelled by inductive types carrying
exactly the node data the detectors consume (`ast.unparse` renderings of
expressions, line numbers, child statement lists).
-/

/-! ## String utilities modelling Python primitives -/

/-- `charsStart needle hay`: `needle` is a prefix of `hay` (character lists). -/
def charsStart : List Char → List Char → Bool
  | [], _ => true
  | _ :: _, [] => false
  | a :: as, b :: bs => a == b && charsStart as bs

/-- `charsHas needle hay`: `needle` occurs contiguously somewhere in `hay`. -/
def charsHas (needle : List Char) : List Char → Bool
  | [] => needle.isEmpty
  | b :: bs => charsStart needle (b :: bs) || charsHas needle bs

/-- Python's `needle in hay` substring test on strings. -/
def strHas (hay needle : String) : Bool :=
  charsHas needle.data hay.data

/-- Python's `str.replace` on character lists: replace every non-overlapping
occurrence of `pat` (left to right) by `rep`.  Only ever used with a
non-empty `pat`.  The first argument is recursion fuel, instantiated with
the text's length (each step consumes at least one character, so that much
fuel always suffices). -/
def replChars (pat rep : List Char) : Nat → List Char → List Char
  | 0, l => l
  | _ + 1, [] => []
  | fuel + 1, x :: xs =>
    if charsStart pat (x :: xs) ∧ pat ≠ [] then
      rep ++ replChars pat rep fuel (List.drop (pat.length - 1) xs)
    else
      x :: replChars pat rep fuel xs

/-- Python's `s.replace(pat, rep)`. -/
def pyReplace (s pat rep : String) : String :=
  String.mk (replChars pat.data rep.data s.data.length s.data)

/-- Python's `content.split('\n')` (accumulator holds the current chunk,
reversed). -/
def splitNlAux : List Char → List Char → List String
  | [], acc => [String.mk acc.reverse]
  | c :: rest, acc =>
    if c == '\n' then String.mk acc.reverse :: splitNlAux rest []
    else splitNlAux rest (c :: acc)

/-- Python's `content.split('\n')`. -/
def pySplitNl (s : String) : List String :=
  splitNlAux s.data []

/-- ASCII lowercasing of one character (the alphabet of the pattern table
and of the framework output is ASCII, where `re.IGNORECASE` and Python
`str.lower` coincide with this). -/
def asciiLower (c : Char) : Char :=
  if 65 ≤ c.toNat ∧ c.toNat ≤ 90 then Char.ofNat (c.toNat + 32) else c

/-- Lexicographic (code-point) comparison of character lists, Python's
string `<=` ordering. -/
def charsLe : List Char → List Char → Bool
  | [], _ => true
  | _ :: _, [] => false
  | a :: as, b :: bs =>
    if a.toNat < b.toNat then true
    else if b.toNat < a.toNat then false
    else charsLe as bs

/-- Python's `a <= b` on strings (code-point lexicographic order). -/
def strLe (a b : String) : Bool :=
  charsLe a.data b.data

/-- Drop leading whitespace characters. -/
def dropWs : List Char → List Char
  | [] => []
  | c :: rest => if c.isWhitespace then dropWs rest else c :: rest

/-- Python's `s.strip()`: remove leading and trailing whitespace. -/
def pyStrip (s : String) : String :=
  String.mk ((dropWs (dropWs s.data).reverse).reverse)

/-- Python's `s[:n]` slice: the first `n` characters (code points). -/
def strTake (s : String) (n : Nat) : String :=
  String.mk (s.data.take n)

/-- Python's `lines[n - 1]` over the `content.split('\n')` line list
(1-based line numbers; total with `""` out of range). -/
def pyLine (lines : List String) (n : Nat) : String :=
  lines.getD (n - 1) ""

/-- Python's `d.get(k, default)` over a dictionary modelled as an
association list whose keys are unique (first match wins). -/
def dictGet (m : List (String × String)) (k d : String) : String :=
  match m.find? (fun p => p.1 == k) with
  | some p => p.2
  | none => d

/-- Python's `d[k] = v` over the association-list dictionary model:
overwrite an existing key in place, else append (insertion order kept). -/
def dictSet : List (String × String) → String → String → List (String × String)
  | [], k, v => [(k, v)]
  | (k0, v0) :: rest, k, v =>
    if k0 == k then (k0, v) :: rest else (k0, v0) :: dictSet rest k v

/-! ## detect_cheating.py : data model -/

/-- The `CheatingPattern` dataclass of `detect_cheating.py`. -/
structure CheatingPattern where
  pattern_type : String
  description : String
  file : String
  line : Nat
  code_snippet : String
  severity : String
deriving Repr, DecidableEq

/-- The fragment of the Python `ast` statement tree that the cheating
detectors consume: `Return` nodes carry the `ast.unparse` text of their
value (`none` for a bare `return`), `If` nodes carry the unparsed guard
text, their line number and their two branches, `FunctionDef` nodes carry
name, `lineno`, `end_lineno` and body.  All other statements are `other`. -/
inductive PyStmt where
  | ret (val : Option String)
  | ifS (testStr : String) (lineno : Nat) (body orelse : List PyStmt)
  | funcDef (name : String) (lineno endLineno : Nat) (body : List PyStmt)
  | other
deriving Repr

/-- One dictionary literal of the implementation file, as consumed by
`detect_lookup_tables`: the `ast.unparse` text of each key (`none` for a
`**` expansion, whose key is `None`) and the literal's line number. -/
structure PyDict where
  keys : List (Option String)
  lineno : Nat
deriving Repr, DecidableEq

/-! ## detect_cheating.py : hardcoded-return detector (lines 88-121) -/

/-- One iteration of the `for stmt in node.body` loop of
`HardcodeDetector.visit_If`: a direct `return <expr>` statement whose
unparsed text is in the test outputs yields a high-severity finding when
the guard text contains some test input as a substring. -/
def hardcodedCheck (implFile : String) (lines inputs outputs : List String)
    (testStr : String) (lineno : Nat) : PyStmt → Option CheatingPattern
  | .ret (some v) =>
    if outputs.contains v ∧ inputs.any (fun inp => strHas testStr inp) then
      some { pattern_type := "hardcoded_return"
             description := "Returns " ++ v ++ " when condition matches test input"
             file := implFile
             line := lineno
             code_snippet := pyStrip (pyLine lines lineno)
             severity := "high" }
    else none
  | _ => none

/-- Body of `HardcodeDetector.visit_If` for one `If` node: run the check
over the direct statements of the then-branch. -/
def hardcodedAtIf (implFile : String) (lines inputs outputs : List String)
    (testStr : String) (lineno : Nat) (body : List PyStmt) : List CheatingPattern :=
  body.filterMap (hardcodedCheck implFile lines inputs outputs testStr lineno)

mutual
/-- `ast.NodeVisitor` traversal of `HardcodeDetector` over one statement:
`visit_If` fires on every `If` node (pre-order), `generic_visit` recurses
into all child statement lists. -/
def hardcodedWalk (implFile : String) (lines inputs outputs : List String) :
    PyStmt → List CheatingPattern
  | .ret _ => []
  | .other => []
  | .funcDef _ _ _ body => hardcodedWalkList implFile lines inputs outputs body
  | .ifS t ln body orelse =>
    hardcodedAtIf implFile lines inputs outputs t ln body
      ++ hardcodedWalkList implFile lines inputs outputs body
      ++ hardcodedWalkList implFile lines inputs outputs orelse

/-- Traversal of a statement list, in source order. -/
def hardcodedWalkList (implFile : String) (lines inputs outputs : List String) :
    List PyStmt → List CheatingPattern
  | [] => []
  | s :: rest =>
    hardcodedWalk implFile lines inputs outputs s
      ++ hardcodedWalkList implFile lines inputs outputs rest
end

/-- `detect_hardcoded_returns`: run the visitor over the module body. -/
def detect_hardcoded_returns (implFile : String) (lines inputs outputs : List String)
    (stmts : List PyStmt) : List CheatingPattern :=
  hardcodedWalkList implFile lines inputs outputs stmts

/-! ## detect_cheating.py : lookup-table detector (lines 124-155) -/

/-- Body of `LookupDetector.visit_Dict` for one dictionary literal: count
the non-`None` keys whose unparsed text is in the test inputs; at two or
more matches emit one high-severity finding whose snippet is the literal's
first line, stripped and truncated to 80 characters. -/
def lookupAtDict (implFile : String) (lines inputs : List String)
    (d : PyDict) : List CheatingPattern :=
  let key_matches := (d.keys.filterMap id).countP (fun k => inputs.contains k)
  if 2 ≤ key_matches then
    [{ pattern_type := "lookup_table"
       description := "Dictionary with " ++ toString key_matches ++ " keys matching test inputs"
       file := implFile
       line := d.lineno
       code_snippet := strTake (pyStrip (pyLine lines d.lineno)) 80
       severity := "high" }]
  else []

/-- `detect_lookup_tables`: the visitor reaches every dictionary literal of
the implementation file (here given in visitation order) and processes each
independently. -/
def detect_lookup_tables (implFile : String) (lines inputs : List String)
    (dicts : List PyDict) : List CheatingPattern :=
  dicts.flatMap (lookupAtDict implFile lines inputs)

/-! ## detect_cheating.py : test-environment detector (lines 158-186)

The six entries of `test_detection_patterns` are regular expressions of the
shape `seg₁.*seg₂.*…`, where each segment is a concatenation of literal
characters and single-character classes.  They are embedded by that exact
shape: a segment matches a fixed-length block of text, and `re.search` with
`re.IGNORECASE` succeeds exactly when the segments occur in order in the
lowercased line. -/

/-- One regex piece: a literal character or a character class. -/
inductive RPiece where
  | lit (c : Char)
  | cls (cs : List Char)
deriving Repr

/-- A segment: consecutive pieces, each consuming exactly one character. -/
abbrev RSeg := List RPiece

/-- A pattern: segments separated by `.*` gaps. -/
abbrev RPat := List RSeg

/-- Match a segment at the head of the text, returning the rest. -/
def segAt : RSeg → List Char → Option (List Char)
  | [], rest => some rest
  | _ :: _, [] => none
  | .lit c :: ps, x :: xs => if x == c then segAt ps xs else none
  | .cls cs :: ps, x :: xs => if cs.contains x then segAt ps xs else none

/-- Find the leftmost occurrence of a segment, returning the text after it. -/
def segFind (seg : RSeg) : List Char → Option (List Char)
  | [] => segAt seg []
  | x :: xs =>
    match segAt seg (x :: xs) with
    | some r => some r
    | none => segFind seg xs

/-- Match the segments of a pattern in order, with arbitrary gaps. -/
def patMatch : RPat → List Char → Bool
  | [], _ => true
  | seg :: rest, cs =>
    match segFind seg cs with
    | some r => patMatch rest r
    | none => false

/-- `re.search(pattern, line, re.IGNORECASE)` for the pattern shapes of the
table: search on the lowercased line (patterns are written lowercased). -/
def reSearchCI (pat : RPat) (line : String) : Bool :=
  patMatch pat (line.data.map asciiLower)

/-- Literal segment. -/
def litSeg (s : String) : RSeg := s.data.map RPiece.lit

/-- The `['"]` character class. -/
def quoteCls : RPiece := RPiece.cls ['\'', '\"']

/-- The fixed `test_detection_patterns` table of `detect_cheating.py`,
pattern first, description second, in source order. -/
def test_detection_patterns : List (RPat × String) :=
  [([litSeg "pytest", litSeg "in", litSeg "sys.modules"], "pytest module detection"),
   ([litSeg "unittest", litSeg "in", litSeg "sys.modules"], "unittest module detection"),
   ([litSeg "__name__", litSeg "==",
     quoteCls :: litSeg "__main__" ++ [quoteCls], litSeg "test"], "main check with test"),
   ([litSeg "os.environ.get(" ++ [quoteCls] ++ litSeg "test"], "TEST environment variable"),
   ([litSeg "os.environ.get(" ++ [quoteCls] ++ litSeg "ci" ++ [quoteCls]], "CI environment variable"),
   ([litSeg "testing", litSeg "=", litSeg "true"], "TESTING flag")]

/-- The finding `detect_test_environment_checks` constructs for a matching
line. -/
def envFinding (implFile : String) (i : Nat) (line desc : String) : CheatingPattern :=
  { pattern_type := "test_detection"
    description := desc
    file := implFile
    line := i
    code_snippet := pyStrip line
    severity := "high" }

/-- Inner loop of `detect_test_environment_checks` for one line (1-based
index `i`): one finding per table entry whose pattern matches the line. -/
def detectTestEnvLine (implFile : String) (i : Nat) (line : String) : List CheatingPattern :=
  test_detection_patterns.filterMap fun pd =>
    if reSearchCI pd.1 line then some (envFinding implFile i line pd.2)
    else none

/-- `detect_test_environment_checks`: scan the raw line list. -/
def detect_test_environment_checks (implFile : String) (lines : List String) :
    List CheatingPattern :=
  (lines.enumFrom 1).flatMap fun p => detectTestEnvLine implFile p.1 p.2

/-! ## detect_cheating.py : excessive-conditionals detector (lines 189-215) -/

mutual
/-- `sum(1 for _ in ast.walk(node) if isinstance(_, ast.If))` restricted to
statements: count every `If` node nested anywhere in a statement, nested
function bodies included. -/
def countIfs : PyStmt → Nat
  | .ret _ => 0
  | .other => 0
  | .ifS _ _ body orelse => 1 + countIfsList body + countIfsList orelse
  | .funcDef _ _ _ body => countIfsList body

/-- `If`-node count of a statement list. -/
def countIfsList : List PyStmt → Nat
  | [] => 0
  | s :: rest => countIfs s + countIfsList rest
end

/-- Body of `ConditionalCounter.visit_FunctionDef` for one function: flag
(medium severity) when the `If` count exceeds 5 and exceeds the line span
(`end_lineno - lineno`) divided by 3.  The source compares
`if_count > line_count / 3` with true division; over the integers at hand
that comparison is exactly `line_count < 3 * if_count`. -/
def excessiveAt (implFile : String) (name : String) (lineno endLineno : Nat)
    (body : List PyStmt) : List CheatingPattern :=
  let if_count := countIfsList body
  let line_count := endLineno - lineno
  if 5 < if_count ∧ line_count < 3 * if_count then
    [{ pattern_type := "excessive_conditionals"
       description := "Function \x27" ++ name ++ "\x27 has " ++ toString if_count
         ++ " conditionals in " ++ toString line_count ++ " lines"
       file := implFile
       line := lineno
       code_snippet := "def " ++ name ++ "(...):"
       severity := "medium" }]
  else []

mutual
/-- `ConditionalCounter` traversal: `visit_FunctionDef` fires on every
function definition (pre-order), `generic_visit` recurses everywhere. -/
def excessiveWalk (implFile : String) : PyStmt → List CheatingPattern
  | .ret _ => []
  | .other => []
  | .ifS _ _ body orelse =>
    excessiveWalkList implFile body ++ excessiveWalkList implFile orelse
  | .funcDef name ln el body =>
    excessiveAt implFile name ln el body ++ excessiveWalkList implFile body

/-- Traversal of a statement list, in source order. -/
def excessiveWalkList (implFile : String) : List PyStmt → List CheatingPattern
  | [] => []
  | s :: rest => excessiveWalk implFile s ++ excessiveWalkList implFile rest
end

/-- `detect_excessive_conditionals`: run the visitor over the module body. -/
def detect_excessive_conditionals (implFile : String) (stmts : List PyStmt) :
    List CheatingPattern :=
  excessiveWalkList implFile stmts

/-! ## detect_cheating.py : aggregation and CLI exit (lines 218-278) -/

/-- `detect_cheating`: concatenation of the four detectors' outputs, in
source order.  The implementation file is given through the projections the
detectors consume: its raw line list, its statement tree, and its
dictionary literals in visitation order. -/
def detect_cheating (implFile : String) (lines inputs outputs : List String)
    (stmts : List PyStmt) (dicts : List PyDict) : List CheatingPattern :=
  detect_hardcoded_returns implFile lines inputs outputs stmts
    ++ detect_lookup_tables implFile lines inputs dicts
    ++ detect_test_environment_checks implFile lines
    ++ detect_excessive_conditionals implFile stmts

/-- The structured (`--json`) report of `main` (lines 245-252). -/
structure CheatingReport where
  clean : Bool
  patterns : List CheatingPattern
  high_severity : Nat
  medium_severity : Nat
  low_severity : Nat
deriving Repr, DecidableEq

/-- Build the structured report from the detected patterns, exactly as the
`--json` branch of `main` does. -/
def buildReport (ps : List CheatingPattern) : CheatingReport :=
  { clean := ps.length == 0
    patterns := ps
    high_severity := ps.countP (fun p => p.severity == "high")
    medium_severity := ps.countP (fun p => p.severity == "medium")
    low_severity := ps.countP (fun p => p.severity == "low") }

/-- Exit status of `main` after a successful analysis (lines 245-278): the
`--json` branch prints the report and falls through (implicit exit 0); the
narrative branch exits 0 when no pattern was found and calls `sys.exit(1)`
otherwise. -/
def mainExitCode (ps : List CheatingPattern) (jsonOutput : Bool) : Nat :=
  if jsonOutput then 0
  else if ps.isEmpty then 0
  else 1

/-! ## detect_flaky.py : one pytest invocation (lines 76-96)

`run_pytest` calls `subprocess.run` with `capture_output=True` and no
exception handling: a spawn that cannot start (executable not found) raises
`FileNotFoundError` out of `run_pytest`; a completed child (any exit code)
yields its captured stdout and stderr, whose concatenation is parsed line
by line with `re.match(r'(.+::.+)\s+(PASSED|FAILED|ERROR|SKIPPED)', line)`.
The regex is embedded with Python's backtracking semantics: both `.+`
groups are greedy, so group 1 extends to the last `::`-containing split
that still leaves whitespace followed by an outcome token. -/

/-- Outcome of attempting to spawn the child test process. -/
inductive SpawnResult where
  | failed (msg : String)
  | completed (exitCode : Int) (stdout stderr : String)
deriving Repr

/-- The `(PASSED|FAILED|ERROR|SKIPPED)` alternation at the head of the
text (the alternatives begin with distinct characters, so order is moot). -/
def tokenAt (cs : List Char) : Option String :=
  if charsStart "PASSED".data cs then some "PASSED"
  else if charsStart "FAILED".data cs then some "FAILED"
  else if charsStart "ERROR".data cs then some "ERROR"
  else if charsStart "SKIPPED".data cs then some "SKIPPED"
  else none

/-- Drop a (possibly empty) run of leading whitespace. -/
def skipWs : List Char → List Char
  | [] => []
  | c :: rest => if c.isWhitespace then skipWs rest else c :: rest

/-- `\s+(PASSED|FAILED|ERROR|SKIPPED)` at the head of the text: at least
one whitespace character, then (tokens start with letters, so the greedy
run consumes the whole whitespace block) an outcome token. -/
def wsThenToken : List Char → Option String
  | [] => none
  | c :: rest => if c.isWhitespace then tokenAt (skipWs rest) else none

/-- Largest `j` such that `\s+(TOKEN)` matches at `List.drop j cs`,
with the matched token — the greedy tail of the second `.+`. -/
def maxSplit : List Char → Option (Nat × String)
  | [] => none
  | c :: rest =>
    match maxSplit rest with
    | some (j, t) => some (j + 1, t)
    | none =>
      match wsThenToken (c :: rest) with
      | some t => some (0, t)
      | none => none

/-- After the literal `::`: the second `.+` consumes `1 + j` characters
(greedy, so `j` maximal) such that `\s+(TOKEN)` matches the rest. -/
def afterCC : List Char → Option (Nat × String)
  | [] => none
  | _ :: rest =>
    match maxSplit rest with
    | some (j, t) => some (j + 1, t)
    | none => none

/-- Largest position `i` at which `::` occurs with the remainder matching
`.+\s+(TOKEN)` — the greedy choice of the first `.+`.  Returns the `::`
position, the second group's consumed length, and the token. -/
def ccSplit : List Char → Option (Nat × Nat × String)
  | [] => none
  | c :: rest =>
    match ccSplit rest with
    | some (i, j, t) => some (i + 1, j, t)
    | none =>
      if charsStart "::".data (c :: rest) then
        match afterCC rest.tail with
        | some (j, t) => some (0, j, t)
        | none => none
      else none

/-- `re.match(r'(.+::.+)\s+(PASSED|FAILED|ERROR|SKIPPED)', line)`:
group 1 (the qualified test name) and group 2 (the outcome token), or
`none` when the line does not match.  The first `.+` needs at least one
character before the `::`, hence the initial destructuring. -/
def pytestMatch (line : String) : Option (String × String) :=
  match line.data with
  | [] => none
  | _ :: rest =>
    match ccSplit rest with
    | some (i, j, t) => some (String.mk (line.data.take ((i + 1) + 2 + j)), t)
    | none => none

/-- `outcome.replace("PASSED", "PASS").replace("SKIPPED", "SKIP")` — the
token translation `run_pytest` stores into its result dictionary. -/
def pytestOutcome (tok : String) : String :=
  pyReplace (pyReplace tok "PASSED" "PASS") "SKIPPED" "SKIP"

/-- The parsing loop of `run_pytest` over the combined output: split on
newlines, and for each matching line assign the translated outcome to the
captured test name in the result dictionary. -/
def parse_pytest_output (output : String) : List (String × String) :=
  (pySplitNl output).foldl
    (fun results line =>
      match pytestMatch line with
      | some (name, tok) => dictSet results name (pytestOutcome tok)
      | none => results)
    []

/-- `run_pytest` over the spawn outcome: a failed spawn propagates (there
is no `try`/`except` around `subprocess.run`); a completed child has
`stdout + stderr` parsed regardless of its exit code. -/
def run_pytestM (spawn : SpawnResult) : Except String (List (String × String)) :=
  match spawn with
  | .failed msg => .error msg
  | .completed _ stdout stderr => .ok (parse_pytest_output (stdout ++ stderr))

/-- The token translation of `run_cargo` (lines 126-150):
`{"ok": "PASS", "FAILED": "FAIL", "ignored": "SKIP"}.get(outcome, "ERROR")`. -/
def cargoOutcome (tok : String) : String :=
  if tok == "ok" then "PASS"
  else if tok == "FAILED" then "FAIL"
  else if tok == "ignored" then "SKIP"
  else "ERROR"

/-! ## detect_flaky.py : multi-run analysis (lines 30-51, 168-231) -/

/-- The `TestResult` dataclass of `detect_flaky.py`. -/
structure TestResult where
  name : String
  outcomes : List String
  is_flaky : Bool
deriving Repr, DecidableEq

/-- The `FlakyReport` dataclass of `detect_flaky.py`. -/
structure FlakyReport where
  total_tests : Nat
  flaky_tests : List TestResult
  stable_tests : Nat
  runs : Nat
  framework : String
deriving Repr, DecidableEq

/-- The `is_stable` property of `FlakyReport`. -/
def FlakyReport.is_stable (r : FlakyReport) : Bool :=
  r.flaky_tests.length == 0

/-- The union of all runs' result-map keys (`all_test_names`, a set). -/
def allTestNames (all_results : List (List (String × String))) : List String :=
  (all_results.flatMap (fun results => results.map Prod.fst)).dedup

/-- Insert a string into a `strLe`-sorted list. -/
def insStr (x : String) : List String → List String
  | [] => [x]
  | y :: ys => if strLe x y then x :: y :: ys else y :: insStr x ys

/-- `sorted(...)` on strings (Python compares code points, as `≤` does). -/
def sortStrs : List String → List String
  | [] => []
  | x :: xs => insStr x (sortStrs xs)

/-- The per-identifier analysis of `detect_flaky_tests`: the outcome
sequence indexes each run's map in run order with `"MISSING"` for an
absent key, and the test is flaky when the set of distinct values in that
sequence (`set(outcomes)`) has more than one member. -/
def mkTestResult (all_results : List (List (String × String))) (name : String) :
    TestResult :=
  let outcomes := all_results.map (fun results => dictGet results name "MISSING")
  { name := name
    outcomes := outcomes
    is_flaky := decide (1 < outcomes.dedup.length) }

/-- The `test_results` list of `detect_flaky_tests`: one `TestResult` per
identifier of `sorted(all_test_names)`. -/
def flakyTestResults (all_results : List (List (String × String))) : List TestResult :=
  (sortStrs (allTestNames all_results)).map (mkTestResult all_results)

/-- The analysis half of `detect_flaky_tests` (lines 197-231), over the
collected per-run result maps: build the per-identifier results, keep the
flaky ones, and aggregate into a `FlakyReport`. -/
def detect_flaky_core (all_results : List (List (String × String)))
    (runs : Nat) (framework : String) : FlakyReport :=
  let test_results := flakyTestResults all_results
  let flaky_tests := test_results.filter (fun r => r.is_flaky)
  { total_tests := test_results.length
    flaky_tests := flaky_tests
    stable_tests := test_results.length - flaky_tests.length
    runs := runs
    framework := framework }

/-! ## Helper lemmas -/

theorem hardcodedCheck_some (implFile : String) (lines inputs outputs : List String)
    (t : String) (ln : Nat) (s : PyStmt) (p : CheatingPattern)
    (h : hardcodedCheck implFile lines inputs outputs t ln s = some p) :
    p.severity = "high" ∧ p.pattern_type = "hardcoded_return" ∧ p.line = ln := by
  cases s with
  | ret v =>
    cases v with
    | none => simp [hardcodedCheck] at h
    | some w =>
      simp only [hardcodedCheck] at h
      split at h
      · cases h
        exact ⟨rfl, rfl, rfl⟩
      · cases h
  | ifS t' ln' b o => simp [hardcodedCheck] at h
  | funcDef n l e b => simp [hardcodedCheck] at h
  | other => simp [hardcodedCheck] at h

theorem hardcodedAtIf_sev (implFile : String) (lines inputs outputs : List String)
    (t : String) (ln : Nat) (body : List PyStmt) :
    ∀ p ∈ hardcodedAtIf implFile lines inputs outputs t ln body,
      p.severity = "high" ∧ p.pattern_type = "hardcoded_return" ∧ p.line = ln := by
  intro p hp
  simp only [hardcodedAtIf, List.mem_filterMap] at hp
  obtain ⟨s, _, hs⟩ := hp
  exact hardcodedCheck_some implFile lines inputs outputs t ln s p hs

mutual
theorem hardcodedWalk_sev (implFile : String) (lines inputs outputs : List String) :
    ∀ s : PyStmt, ∀ p ∈ hardcodedWalk implFile lines inputs outputs s, p.severity = "high"
  | .ret v => by simp [hardcodedWalk]
  | .other => by simp [hardcodedWalk]
  | .funcDef n l e body => by
    intro p hp
    rw [hardcodedWalk] at hp
    exact hardcodedWalkList_sev implFile lines inputs outputs body p hp
  | .ifS t ln body orelse => by
    intro p hp
    rw [hardcodedWalk] at hp
    rcases List.mem_append.mp hp with hp' | hp'
    · rcases List.mem_append.mp hp' with hp'' | hp''
      · exact (hardcodedAtIf_sev implFile lines inputs outputs t ln body p hp'').1
      · exact hardcodedWalkList_sev implFile lines inputs outputs body p hp''
    · exact hardcodedWalkList_sev implFile lines inputs outputs orelse p hp'

theorem hardcodedWalkList_sev (implFile : String) (lines inputs outputs : List String) :
    ∀ l : List PyStmt, ∀ p ∈ hardcodedWalkList implFile lines inputs outputs l,
      p.severity = "high"
  | [] => by simp [hardcodedWalkList]
  | s :: rest => by
    intro p hp
    rw [hardcodedWalkList] at hp
    rcases List.mem_append.mp hp with hp' | hp'
    · exact hardcodedWalk_sev implFile lines inputs outputs s p hp'
    · exact hardcodedWalkList_sev implFile lines inputs outputs rest p hp'
end

theorem lookupAtDict_sev (implFile : String) (lines inputs : List String) (d : PyDict) :
    ∀ p ∈ lookupAtDict implFile lines inputs d,
      p.severity = "high" ∧ p.pattern_type = "lookup_table" ∧ p.line = d.lineno ∧
        p.code_snippet = strTake (pyStrip (pyLine lines d.lineno)) 80 := by
  intro p hp
  simp only [lookupAtDict] at hp
  split at hp
  · simp only [List.mem_singleton] at hp
    subst hp
    exact ⟨rfl, rfl, rfl, rfl⟩
  · simp at hp

theorem envFinding_mem_sev (implFile : String) (i : Nat) (line : String) :
    ∀ p ∈ detectTestEnvLine implFile i line,
      p.severity = "high" ∧ p.pattern_type = "test_detection" ∧ p.line = i ∧
        p.code_snippet = pyStrip line ∧
        ∃ pd ∈ test_detection_patterns, reSearchCI pd.1 line = true ∧ p.description = pd.2 := by
  intro p hp
  simp only [detectTestEnvLine, List.mem_filterMap] at hp
  obtain ⟨pd, hpd, hs⟩ := hp
  split at hs
  · cases hs
    exact ⟨rfl, rfl, rfl, rfl, pd, hpd, by assumption, rfl⟩
  · cases hs

theorem excessiveAt_sev (implFile : String) (name : String) (lineno endLineno : Nat)
    (body : List PyStmt) :
    ∀ p ∈ excessiveAt implFile name lineno endLineno body,
      p.severity = "medium" ∧ p.pattern_type = "excessive_conditionals" ∧ p.line = lineno := by
  intro p hp
  simp only [excessiveAt] at hp
  split at hp
  · simp only [List.mem_singleton] at hp
    subst hp
    exact ⟨rfl, rfl, rfl⟩
  · simp at hp

mutual
theorem excessiveWalk_sev (implFile : String) :
    ∀ s : PyStmt, ∀ p ∈ excessiveWalk implFile s, p.severity = "medium"
  | .ret v => by simp [excessiveWalk]
  | .other => by simp [excessiveWalk]
  | .ifS t ln body orelse => by
    intro p hp
    rw [excessiveWalk] at hp
    rcases List.mem_append.mp hp with hp' | hp'
    · exact excessiveWalkList_sev implFile body p hp'
    · exact excessiveWalkList_sev implFile orelse p hp'
  | .funcDef name ln el body => by
    intro p hp
    rw [excessiveWalk] at hp
    rcases List.mem_append.mp hp with hp' | hp'
    · exact (excessiveAt_sev implFile name ln el body p hp').1
    · exact excessiveWalkList_sev implFile body p hp'

theorem excessiveWalkList_sev (implFile : String) :
    ∀ l : List PyStmt, ∀ p ∈ excessiveWalkList implFile l, p.severity = "medium"
  | [] => by simp [excessiveWalkList]
  | s :: rest => by
    intro p hp
    rw [excessiveWalkList] at hp
    rcases List.mem_append.mp hp with hp' | hp'
    · exact excessiveWalk_sev implFile s p hp'
    · exact excessiveWalkList_sev implFile rest p hp'
end

theorem detect_cheating_sev (implFile : String) (lines inputs outputs : List String)
    (stmts : List PyStmt) (dicts : List PyDict) :
    ∀ p ∈ detect_cheating implFile lines inputs outputs stmts dicts,
      p.severity = "high" ∨ p.severity = "medium" := by
  intro p hp
  simp only [detect_cheating, List.append_assoc, List.mem_append] at hp
  rcases hp with hp | hp | hp | hp
  · exact Or.inl (hardcodedWalkList_sev implFile lines inputs outputs stmts p hp)
  · rcases List.mem_flatMap.mp hp with ⟨d, _, hd⟩
    exact Or.inl (lookupAtDict_sev implFile lines inputs d p hd).1
  · rcases List.mem_flatMap.mp hp with ⟨q, _, hq⟩
    exact Or.inl (envFinding_mem_sev implFile q.1 q.2 p hq).1
  · exact Or.inr (excessiveWalkList_sev implFile stmts p hp)

theorem countP_sev_split (l : List CheatingPattern)
    (h : ∀ p ∈ l, p.severity = "high" ∨ p.severity = "medium") :
    l.countP (fun p => p.severity == "high") + l.countP (fun p => p.severity == "medium")
      + l.countP (fun p => p.severity == "low") = l.length := by
  induction l with
  | nil => simp
  | cons a l ih =>
    have ha := h a (List.mem_cons_self a l)
    have hl := ih fun p hp => h p (List.mem_cons_of_mem a hp)
    rcases ha with ha | ha <;> simp [List.countP_cons, ha] <;> omega

theorem mem_insStr (x a : String) : ∀ l : List String, a ∈ insStr x l ↔ a = x ∨ a ∈ l
  | [] => by simp [insStr]
  | y :: ys => by
    simp only [insStr]
    split
    · simp [List.mem_cons]
    · simp only [List.mem_cons, mem_insStr x a ys]
      tauto

theorem mem_sortStrs (a : String) : ∀ l : List String, a ∈ sortStrs l ↔ a ∈ l
  | [] => by simp [sortStrs]
  | x :: xs => by
    simp only [sortStrs, mem_insStr, mem_sortStrs a xs, List.mem_cons]

/-! ## Claim theorems -/

/-- C1 (counterexample): with `--json` requested, a run whose analysis
produced one finding still exits 0 — the exit status is not nonzero
whenever a finding exists, so the "regardless of structured output" part
of the claim fails on the code. -/
theorem cheating_exit_json_counterexample :
    (detect_test_environment_checks "impl.py" ["TESTING = True"]).length = 1
      ∧ mainExitCode (detect_test_environment_checks "impl.py" ["TESTING = True"]) true = 0 :=
  ⟨by decide, rfl⟩

/-- C1 (amended): after a successful analysis the process exit status is
nonzero exactly when narrative output was requested and at least one
finding exists; the `--json` branch always exits 0. -/
theorem cheating_exit_nonzero_iff_narrative_findings
    (ps : List CheatingPattern) (jsonOutput : Bool) :
    mainExitCode ps jsonOutput ≠ 0 ↔ jsonOutput = false ∧ ps ≠ [] := by
  cases jsonOutput with
  | true => simp [mainExitCode]
  | false =>
    cases ps with
    | nil => simp [mainExitCode]
    | cons a l => simp [mainExitCode]

/-- C9: for every structured cheating report built from the four
detectors' findings, the `clean` flag equals (number of findings == 0)
and the high, medium and low severity counts sum to the number of
findings. -/
theorem cheating_report_invariants (implFile : String)
    (lines inputs outputs : List String) (stmts : List PyStmt) (dicts : List PyDict) :
    ((buildReport (detect_cheating implFile lines inputs outputs stmts dicts)).clean = true
        ↔ (buildReport (detect_cheating implFile lines inputs outputs stmts dicts)).patterns.length = 0)
      ∧ (buildReport (detect_cheating implFile lines inputs outputs stmts dicts)).high_severity
          + (buildReport (detect_cheating implFile lines inputs outputs stmts dicts)).medium_severity
          + (buildReport (detect_cheating implFile lines inputs outputs stmts dicts)).low_severity
        = (buildReport (detect_cheating implFile lines inputs outputs stmts dicts)).patterns.length := by
  constructor
  · simp [buildReport]
  · exact countP_sev_split _ (detect_cheating_sev implFile lines inputs outputs stmts dicts)

/-- C10: every report the flaky detector aggregates satisfies
`total_tests = stable_tests + len(flaky_tests)`, and `is_stable` holds
exactly when the flaky list is empty. -/
theorem flaky_report_invariants (all_results : List (List (String × String)))
    (runs : Nat) (framework : String) :
    (detect_flaky_core all_results runs framework).total_tests
        = (detect_flaky_core all_results runs framework).stable_tests
          + (detect_flaky_core all_results runs framework).flaky_tests.length
      ∧ ((detect_flaky_core all_results runs framework).is_stable = true
        ↔ (detect_flaky_core all_results runs framework).flaky_tests = []) := by
  constructor
  · have h := List.length_filter_le (fun r => r.is_flaky) (flakyTestResults all_results)
    simp only [detect_flaky_core]
    omega
  · simp [detect_flaky_core, FlakyReport.is_stable, List.length_eq_zero]

/-- C2: for every multi-run session and every identifier in the union of
the runs' result-map keys, the outcome sequence indexes each run's map in
run order substituting MISSING for an absent key, and the test is marked
flaky — its record enters the report's flaky list — exactly when the set
of distinct values in that sequence has more than one member. -/
theorem flaky_mark_iff_multiple_distinct (all_results : List (List (String × String)))
    (runs : Nat) (framework : String) (name : String)
    (h : name ∈ allTestNames all_results) :
    (mkTestResult all_results name).outcomes
        = all_results.map (fun results => dictGet results name "MISSING")
      ∧ ((mkTestResult all_results name).is_flaky = true
        ↔ 1 < (all_results.map (fun results => dictGet results name "MISSING")).dedup.length)
      ∧ (mkTestResult all_results name
            ∈ (detect_flaky_core all_results runs framework).flaky_tests
        ↔ 1 < (all_results.map (fun results => dictGet results name "MISSING")).dedup.length) := by
  refine ⟨rfl, ?_, ?_⟩
  · simp [mkTestResult]
  · constructor
    · intro hmem
      simp only [detect_flaky_core] at hmem
      have h2 := (List.mem_filter.mp hmem).2
      simpa [mkTestResult] using h2
    · intro hlt
      have hmemres : mkTestResult all_results name ∈ flakyTestResults all_results := by
        unfold flakyTestResults
        exact List.mem_map_of_mem _ ((mem_sortStrs name _).mpr h)
      simp only [detect_flaky_core]
      exact List.mem_filter.mpr ⟨hmemres, by simpa [mkTestResult] using hlt⟩

/-- C2 (witness): identifier `B` is present with PASS in runs 1 and 3 and
absent in run 2; its outcome sequence is `[PASS, MISSING, PASS]` and it is
flagged flaky. -/
theorem flaky_mark_iff_multiple_distinct_witness :
    ("B" ∈ allTestNames [[("A", "PASS"), ("B", "PASS")], [("A", "PASS")], [("A", "PASS"), ("B", "PASS")]])
      ∧ (mkTestResult [[("A", "PASS"), ("B", "PASS")], [("A", "PASS")], [("A", "PASS"), ("B", "PASS")]] "B").outcomes
          = ["PASS", "MISSING", "PASS"]
      ∧ mkTestResult [[("A", "PASS"), ("B", "PASS")], [("A", "PASS")], [("A", "PASS"), ("B", "PASS")]] "B"
          ∈ (detect_flaky_core [[("A", "PASS"), ("B", "PASS")], [("A", "PASS")], [("A", "PASS"), ("B", "PASS")]] 3 "pytest").flaky_tests := by
  have h := flaky_mark_iff_multiple_distinct
    [[("A", "PASS"), ("B", "PASS")], [("A", "PASS")], [("A", "PASS"), ("B", "PASS")]]
    3 "pytest" "B" (by decide)
  exact ⟨by decide, by decide, h.2.2.mpr (by decide)⟩

/-- C3 (evaluation at the failing input): a pytest line reporting `FAILED`
is stored with outcome value `"FAILED"`, which is not a member of the
shared outcome enum {PASS, FAIL, ERROR, SKIP} — the `replace` chain of
`run_pytest` normalizes `PASSED` and `SKIPPED` but not `FAILED`.  The
cargo adapter, by contrast, does translate its `FAILED` token to `FAIL`. -/
theorem pytest_failed_outcome_not_in_enum :
    parse_pytest_output "tests/test_mod.py::test_one FAILED"
        = [("tests/test_mod.py::test_one", "FAILED")]
      ∧ ("FAILED" ∈ ["PASS", "FAIL", "ERROR", "SKIP"]) = False
      ∧ pytestOutcome "PASSED" = "PASS" ∧ pytestOutcome "SKIPPED" = "SKIP"
      ∧ cargoOutcome "FAILED" = "FAIL" :=
  ⟨by decide, by decide, by decide, by decide, by decide⟩

/-- C4 (counterexample): a child-process invocation that fails to start
(executable not found) propagates the exception out of `run_pytest` — the
run does not yield an outcome map, empty or otherwise, and the session
aborts; this falsifies the claim's "does not raise an error" for the
failed-start case. -/
theorem pytest_spawn_failure_counterexample :
    run_pytestM (SpawnResult.failed "No such file or directory: \x27pytest\x27")
        = Except.error "No such file or directory: \x27pytest\x27"
      ∧ (run_pytestM (SpawnResult.failed "No such file or directory: \x27pytest\x27")).isOk = false :=
  ⟨rfl, rfl⟩

/-- C4 (amended): a child process that starts and exits — with any exit
code, zero or not — is not an error: its combined stdout/stderr is parsed
into whatever (possibly empty or partial) outcome map it contains; only an
invocation that fails to start propagates an error and aborts. -/
theorem run_pytest_parses_regardless_of_exit_code (rc : Int) (stdout stderr msg : String) :
    run_pytestM (SpawnResult.completed rc stdout stderr)
        = Except.ok (parse_pytest_output (stdout ++ stderr))
      ∧ run_pytestM (SpawnResult.failed msg) = Except.error msg :=
  ⟨rfl, rfl⟩

theorem hardcodedCheck_isSome_iff (implFile : String) (lines inputs outputs : List String)
    (t : String) (ln : Nat) (s : PyStmt) :
    (hardcodedCheck implFile lines inputs outputs t ln s).isSome = true
      ↔ ∃ v, s = PyStmt.ret (some v) ∧ v ∈ outputs
          ∧ ∃ inp ∈ inputs, strHas t inp = true := by
  cases s with
  | ret v =>
    cases v with
    | none => simp [hardcodedCheck]
    | some w =>
      constructor
      · intro hp
        simp only [hardcodedCheck] at hp
        split at hp
        · rename_i hc
          refine ⟨w, rfl, List.elem_iff.mp hc.1, ?_⟩
          obtain ⟨inp, hinp, hhas⟩ := List.any_eq_true.mp hc.2
          exact ⟨inp, hinp, hhas⟩
        · cases hp
      · rintro ⟨v, hv, hvo, inp, hinp, hhas⟩
        injection hv with hv1
        injection hv1 with hv2
        subst hv2
        have hc : outputs.contains w ∧ inputs.any (fun inp => strHas t inp) :=
          ⟨List.elem_iff.mpr hvo, List.any_eq_true.mpr ⟨inp, hinp, hhas⟩⟩
        simp only [hardcodedCheck, if_pos hc, Option.isSome_some]
  | ifS t' ln' b o => simp [hardcodedCheck]
  | funcDef n l e b => simp [hardcodedCheck]
  | other => simp [hardcodedCheck]

/-- C5: for one conditional, the hardcoded-return detector emits a finding
exactly when some direct `return` of the then-branch unparses to a member
of the test outputs and the guard text contains some test input as a
substring; every emitted finding is high-severity at the conditional's
line; and on `inputs = {"5"}`, `outputs = {"25"}` the implementation
`if x == 5: return 25` yields exactly one `hardcoded_return` finding while
`return 24` yields none. -/
theorem hardcoded_return_iff_and_examples (implFile : String)
    (lines inputs outputs : List String) (t : String) (ln : Nat) (body : List PyStmt) :
    (hardcodedAtIf implFile lines inputs outputs t ln body ≠ []
        ↔ ∃ v, PyStmt.ret (some v) ∈ body ∧ v ∈ outputs
            ∧ ∃ inp ∈ inputs, strHas t inp = true)
      ∧ (∀ p ∈ hardcodedAtIf implFile lines inputs outputs t ln body,
          p.severity = "high" ∧ p.pattern_type = "hardcoded_return" ∧ p.line = ln)
      ∧ detect_hardcoded_returns "impl.py" ["def f(x):", "    if x == 5:", "        return 25"]
          ["5"] ["25"]
          [PyStmt.funcDef "f" 1 3 [PyStmt.ifS "x == 5" 2 [PyStmt.ret (some "25")] []]]
        = [{ pattern_type := "hardcoded_return"
             description := "Returns 25 when condition matches test input"
             file := "impl.py"
             line := 2
             code_snippet := "if x == 5:"
             severity := "high" }]
      ∧ detect_hardcoded_returns "impl.py" ["def f(x):", "    if x == 5:", "        return 24"]
          ["5"] ["25"]
          [PyStmt.funcDef "f" 1 3 [PyStmt.ifS "x == 5" 2 [PyStmt.ret (some "24")] []]]
        = [] := by
  refine ⟨?_, hardcodedAtIf_sev implFile lines inputs outputs t ln body, by decide, by decide⟩
  constructor
  · intro hne
    obtain ⟨p, hp⟩ := List.exists_mem_of_ne_nil _ hne
    obtain ⟨s, hs, hfs⟩ := List.mem_filterMap.mp hp
    obtain ⟨v, rfl, hvo, hin⟩ :=
      (hardcodedCheck_isSome_iff implFile lines inputs outputs t ln s).mp
        (Option.isSome_iff_exists.mpr ⟨p, hfs⟩)
    exact ⟨v, hs, hvo, hin⟩
  · rintro ⟨v, hv, hvo, hin⟩
    obtain ⟨p, hp⟩ := Option.isSome_iff_exists.mp
      ((hardcodedCheck_isSome_iff implFile lines inputs outputs t ln
        (PyStmt.ret (some v))).mpr ⟨v, rfl, hvo, hin⟩)
    intro hnil
    have hmem : p ∈ hardcodedAtIf implFile lines inputs outputs t ln body :=
      List.mem_filterMap.mpr ⟨_, hv, hp⟩
    rw [hnil] at hmem
    cases hmem

/-- C5 (witness): the general part of the theorem applied at the concrete
conditional `if x == 5: return 25` with test values {"5"} / {"25"}. -/
theorem hardcoded_return_iff_and_examples_witness :
    hardcodedAtIf "impl.py" ["def f(x):", "    if x == 5:", "        return 25"]
        ["5"] ["25"] "x == 5" 2 [PyStmt.ret (some "25")] ≠ []
      ∧ ∀ p ∈ hardcodedAtIf "impl.py" ["def f(x):", "    if x == 5:", "        return 25"]
          ["5"] ["25"] "x == 5" 2 [PyStmt.ret (some "25")],
          p.severity = "high" ∧ p.pattern_type = "hardcoded_return" ∧ p.line = 2 := by
  have h := hardcoded_return_iff_and_examples "impl.py"
    ["def f(x):", "    if x == 5:", "        return 25"] ["5"] ["25"] "x == 5" 2
    [PyStmt.ret (some "25")]
  exact ⟨h.1.mpr ⟨"25", List.mem_singleton.mpr rfl, by decide, "5", by decide, by decide⟩,
    h.2.1⟩

/-- C6: for every dictionary literal, the lookup-table detector emits a
finding exactly when at least two keys' canonicalized texts are members of
the test inputs (so exactly one matching key yields nothing), it never
emits more than one finding per literal, and the finding's snippet is the
literal's first line, stripped and truncated to 80 characters. -/
theorem lookup_table_threshold (implFile : String) (lines inputs : List String)
    (d : PyDict) :
    (lookupAtDict implFile lines inputs d ≠ []
        ↔ 2 ≤ (d.keys.filterMap id).countP (fun k => inputs.contains k))
      ∧ (lookupAtDict implFile lines inputs d).length ≤ 1
      ∧ ∀ p ∈ lookupAtDict implFile lines inputs d,
          p.severity = "high" ∧ p.pattern_type = "lookup_table" ∧ p.line = d.lineno
            ∧ p.code_snippet = strTake (pyStrip (pyLine lines d.lineno)) 80 := by
  refine ⟨?_, ?_, lookupAtDict_sev implFile lines inputs d⟩
  · simp only [lookupAtDict]
    split
    · rename_i hc
      simpa using hc
    · rename_i hc
      simpa using hc
  · simp only [lookupAtDict]
    split <;> simp

/-- C6 (witness): a dictionary literal whose two keys `1` and `2` are both
test inputs yields exactly one finding with the truncated first-line
snippet. -/
theorem lookup_table_threshold_witness :
    lookupAtDict "impl.py" ["d = \x7b1: 1, 2: 4\x7d"] ["1", "2"] ⟨[some "1", some "2"], 1⟩ ≠ []
      ∧ (lookupAtDict "impl.py" ["d = \x7b1: 1, 2: 4\x7d"] ["1", "2"]
          ⟨[some "1", some "2"], 1⟩).length ≤ 1
      ∧ (({ pattern_type := "lookup_table"
            description := "Dictionary with 2 keys matching test inputs"
            file := "impl.py"
            line := 1
            code_snippet := "d = \x7b1: 1, 2: 4\x7d"
            severity := "high" } : CheatingPattern).severity = "high"
          ∧ ({ pattern_type := "lookup_table"
               description := "Dictionary with 2 keys matching test inputs"
               file := "impl.py"
               line := 1
               code_snippet := "d = \x7b1: 1, 2: 4\x7d"
               severity := "high" } : CheatingPattern).pattern_type = "lookup_table"
          ∧ ({ pattern_type := "lookup_table"
               description := "Dictionary with 2 keys matching test inputs"
               file := "impl.py"
               line := 1
               code_snippet := "d = \x7b1: 1, 2: 4\x7d"
               severity := "high" } : CheatingPattern).line = (⟨[some "1", some "2"], 1⟩ : PyDict).lineno
          ∧ ({ pattern_type := "lookup_table"
               description := "Dictionary with 2 keys matching test inputs"
               file := "impl.py"
               line := 1
               code_snippet := "d = \x7b1: 1, 2: 4\x7d"
               severity := "high" } : CheatingPattern).code_snippet
            = strTake (pyStrip (pyLine ["d = \x7b1: 1, 2: 4\x7d"] (⟨[some "1", some "2"], 1⟩ : PyDict).lineno)) 80) := by
  have h := lookup_table_threshold "impl.py" ["d = \x7b1: 1, 2: 4\x7d"] ["1", "2"]
    ⟨[some "1", some "2"], 1⟩
  exact ⟨h.1.mpr (by decide), h.2.1, h.2.2 _ (by decide)⟩

/-- C7 (counterexample): the single line
`if "pytest" in sys.modules and "unittest" in sys.modules:` matches two
entries of the pattern table and yields two findings, not the one finding
per matching line the claim states. -/
theorem test_env_double_match_counterexample :
    test_detection_patterns.countP
        (fun pd => reSearchCI pd.1 "if \x22pytest\x22 in sys.modules and \x22unittest\x22 in sys.modules:") = 2
      ∧ (detectTestEnvLine "impl.py" 1
          "if \x22pytest\x22 in sys.modules and \x22unittest\x22 in sys.modules:").length = 2 :=
  ⟨by decide, by decide⟩

/-- C7 (amended): each (line, pattern) pair with a case-insensitive match
yields one high-severity finding carrying that pattern's description and
the trimmed line text — a line matching k patterns yields k findings. -/
theorem test_env_one_finding_per_matching_pattern (implFile : String) (i : Nat)
    (line : String) :
    (detectTestEnvLine implFile i line).length
        = test_detection_patterns.countP (fun pd => reSearchCI pd.1 line)
      ∧ ∀ p ∈ detectTestEnvLine implFile i line,
          p.severity = "high" ∧ p.pattern_type = "test_detection" ∧ p.line = i
            ∧ p.code_snippet = pyStrip line
            ∧ ∃ pd ∈ test_detection_patterns, reSearchCI pd.1 line = true ∧ p.description = pd.2 := by
  refine ⟨?_, envFinding_mem_sev implFile i line⟩
  have aux : ∀ tbl : List (RPat × String),
      (tbl.filterMap fun pd =>
          if reSearchCI pd.1 line then some (envFinding implFile i line pd.2) else none).length
        = tbl.countP (fun pd => reSearchCI pd.1 line) := by
    intro tbl
    induction tbl with
    | nil => simp
    | cons pd tbl ih =>
      by_cases hc : reSearchCI pd.1 line
      · simp [List.filterMap_cons, List.countP_cons, hc, ih]
      · simp [List.filterMap_cons, List.countP_cons, hc, ih]
  simpa only [detectTestEnvLine] using aux test_detection_patterns

/-- C7 (witness): the line `TESTING = True` matches exactly the
`TESTING flag` entry and its finding carries that description and the
trimmed line. -/
theorem test_env_one_finding_per_matching_pattern_witness :
    (detectTestEnvLine "impl.py" 1 "TESTING = True").length
        = test_detection_patterns.countP (fun pd => reSearchCI pd.1 "TESTING = True")
      ∧ ((envFinding "impl.py" 1 "TESTING = True" "TESTING flag").severity = "high"
          ∧ (envFinding "impl.py" 1 "TESTING = True" "TESTING flag").pattern_type = "test_detection"
          ∧ (envFinding "impl.py" 1 "TESTING = True" "TESTING flag").line = 1
          ∧ (envFinding "impl.py" 1 "TESTING = True" "TESTING flag").code_snippet
              = pyStrip "TESTING = True"
          ∧ ∃ pd ∈ test_detection_patterns,
              reSearchCI pd.1 "TESTING = True" = true
                ∧ (envFinding "impl.py" 1 "TESTING = True" "TESTING flag").description = pd.2) := by
  have h := test_env_one_finding_per_matching_pattern "impl.py" 1 "TESTING = True"
  exact ⟨h.1, h.2 _ (by decide)⟩

/-- C8: the excessive-conditionals detector flags a function exactly when
its nested conditional count exceeds 5 and exceeds its line span divided
by 3, with one medium-severity finding at the function's line; a function
spanning 9 lines with 6 conditionals is flagged and one with 5 is not. -/
theorem excessive_conditionals_iff_and_examples (implFile : String) (name : String)
    (lineno endLineno : Nat) (body : List PyStmt) :
    (excessiveAt implFile name lineno endLineno body ≠ []
        ↔ 5 < countIfsList body ∧ endLineno - lineno < 3 * countIfsList body)
      ∧ (∀ p ∈ excessiveAt implFile name lineno endLineno body,
          p.severity = "medium" ∧ p.pattern_type = "excessive_conditionals" ∧ p.line = lineno)
      ∧ (excessiveAt implFile name lineno endLineno body).length ≤ 1
      ∧ (detect_excessive_conditionals "f.py"
          [PyStmt.funcDef "f" 1 10
            (List.replicate 6 (PyStmt.ifS "x == 1" 2 [PyStmt.ret (some "1")] []))]).length = 1
      ∧ detect_excessive_conditionals "f.py"
          [PyStmt.funcDef "f" 1 10
            (List.replicate 5 (PyStmt.ifS "x == 1" 2 [PyStmt.ret (some "1")] []))] = [] := by
  refine ⟨?_, excessiveAt_sev implFile name lineno endLineno body, ?_, by decide, by decide⟩
  · simp only [excessiveAt]
    split
    · rename_i hc
      simpa using hc
    · rename_i hc
      simpa using hc
  · simp only [excessiveAt]
    split <;> simp

/-- C8 (witness): the general part of the theorem applied at the concrete
function spanning lines 1-10 with six conditionals. -/
theorem excessive_conditionals_iff_and_examples_witness :
    excessiveAt "f.py" "f" 1 10
        (List.replicate 6 (PyStmt.ifS "x == 1" 2 [PyStmt.ret (some "1")] [])) ≠ []
      ∧ (excessiveAt "f.py" "f" 1 10
          (List.replicate 6 (PyStmt.ifS "x == 1" 2 [PyStmt.ret (some "1")] []))).length ≤ 1 := by
  have h := excessive_conditionals_iff_and_examples "f.py" "f" 1 10
    (List.replicate 6 (PyStmt.ifS "x == 1" 2 [PyStmt.ret (some "1")] []))
  exact ⟨h.1.mpr (by decide), h.2.2.1⟩
